import Mathlib

/-!
Shallow embedding of lemmy's scheduled background tasks
(`src/scheduled_tasks.rs`) and the `PersonMention` CRUD layer
(`crates/db_schema/src/impls/person_mention.rs`), together with proofs of
the specification's claims about them.

Modelling conventions:
* Timestamps are `Int` seconds; `now` is passed explicitly where the SQL
  uses `now`.
* Database tables are `List`s of row structures; a set-based SQL `UPDATE`
  is a `List.map` and a set-based `DELETE` is a `List.filter`, mirroring
  the filtered bulk statements in the source.
* SQL `NULL` columns are `Option` fields; a SQL comparison against `NULL`
  is three-valued and never true, so `expires < now` on a `NULL` expiry is
  modelled as `false`.
* The external `hot_rank` scoring function is an opaque parameter
  `hr : Int → Int → Int` (magnitude, reference timestamp), exactly as the
  source only invokes it.
* Postgres intervals `1 week` / `6 months` become fixed second counts;
  every claim is stated relative to the cutoff `now - interval`, so the
  exact length of a month is immaterial to the theorems.
-/

/-- One row of the `activity` audit/event log (`activity` table); only the
`published` column is examined by the scheduled tasks, the remaining
columns are abstracted as an opaque payload. -/
structure Activity where
  id : Nat
  published : Int
  payload : String
deriving DecidableEq, Repr

/-- Interval `6 months` of `clear_old_activities`, in seconds. -/
def sixMonths : Int := 6 * 30 * 24 * 60 * 60

/-- Interval `1 week` used by the windowed `update_hot_ranks`, in seconds. -/
def oneWeek : Int := 7 * 24 * 60 * 60

/-- `clear_old_activities`: delete every `activity` row with
`published < now - 6 months` (`activity::published.lt(now - 6.months())`). -/
def clear_old_activities (now : Int) (acts : List Activity) : List Activity :=
  acts.filter (fun a => !decide (a.published < now - sixMonths))

/-- One row of the `person` table; columns other than `banned` and
`ban_expires` are abstracted into `name`. -/
structure Person where
  id : Nat
  name : String
  banned : Bool
  ban_expires : Option Int
deriving DecidableEq, Repr

/-- One row of the `community_person_ban` table. -/
structure CommunityPersonBan where
  community_id : Nat
  person_id : Nat
  expires : Option Int
deriving DecidableEq, Repr

/-- SQL `col < now` on a nullable timestamp column: `NULL` compares as
unknown, i.e. the filter does not match. -/
def expiresLt : Option Int → Int → Bool
  | some e, now => decide (e < now)
  | none, _ => false

/-- The per-row effect of the filtered `person` update: rows matching
`banned = true` and `ban_expires < now` get `banned = false`, all other
rows are left as they are. -/
def sweepPerson (now : Int) (p : Person) : Person :=
  if p.banned && expiresLt p.ban_expires now then { p with banned := false } else p

/-- `update_banned_when_expired`: set `banned = false` on every person with
`banned = true` and `ban_expires < now`, and delete every
`community_person_ban` row with `expires < now`. -/
def update_banned_when_expired (now : Int) (persons : List Person)
    (bans : List CommunityPersonBan) : List Person × List CommunityPersonBan :=
  (persons.map (sweepPerson now),
   bans.filter (fun b => !expiresLt b.expires now))

/-- One row of `post_aggregates`. -/
structure PostAggregate where
  post_id : Nat
  score : Int
  published : Int
  newest_comment_time_necro : Int
  hot_rank : Int
  hot_rank_active : Int
deriving DecidableEq, Repr

/-- One row of `comment_aggregates`. -/
structure CommentAggregate where
  comment_id : Nat
  score : Int
  published : Int
  hot_rank : Int
deriving DecidableEq, Repr

/-- One row of `community_aggregates`. -/
structure CommunityAggregate where
  community_id : Nat
  subscribers : Int
  published : Int
  hot_rank : Int
deriving DecidableEq, Repr

/-- The `SET` clause of the `post_aggregates` update: recompute `hot_rank`
from `(score, published)` and `hot_rank_active` from
`(score, newest_comment_time_necro)`. -/
def setPostHotRank (hr : Int → Int → Int) (p : PostAggregate) : PostAggregate :=
  { p with hot_rank := hr p.score p.published,
           hot_rank_active := hr p.score p.newest_comment_time_necro }

/-- The `SET` clause of the `comment_aggregates` update. -/
def setCommentHotRank (hr : Int → Int → Int) (c : CommentAggregate) : CommentAggregate :=
  { c with hot_rank := hr c.score c.published }

/-- The `SET` clause of the `community_aggregates` update: the magnitude is
the subscriber count. -/
def setCommunityHotRank (hr : Int → Int → Int) (c : CommunityAggregate) : CommunityAggregate :=
  { c with hot_rank := hr c.subscribers c.published }

/-- `update_hot_ranks`: bulk-update the three aggregate tables; when
`last_week_only` is set, each update is filtered by
`published.gt(now - 1.week())`. `hr` is the external `hot_rank` SQL
function. -/
def update_hot_ranks (hr : Int → Int → Int) (now : Int) (last_week_only : Bool)
    (posts : List PostAggregate) (comments : List CommentAggregate)
    (communities : List CommunityAggregate) :
    List PostAggregate × List CommentAggregate × List CommunityAggregate :=
  (posts.map (fun p =>
      if !last_week_only || decide (now - oneWeek < p.published) then setPostHotRank hr p else p),
   comments.map (fun c =>
      if !last_week_only || decide (now - oneWeek < c.published) then setCommentHotRank hr c else c),
   communities.map (fun c =>
      if !last_week_only || decide (now - oneWeek < c.published) then setCommunityHotRank hr c else c))

/-- One row of the `instance` table. -/
structure Instance where
  id : Nat
  domain : String
  software : Option String
  version : Option String
  updated : Option Int
deriving DecidableEq, Repr

/-- The `software` block of a nodeinfo document; both fields optional, as
the source reads them with `and_then`. -/
structure NodeInfoSoftware where
  name : Option String
  version : Option String
deriving DecidableEq, Repr

/-- A decoded `nodeinfo/2.0.json` document; the `software` block itself is
optional. -/
structure NodeInfo where
  software : Option NodeInfoSoftware
deriving DecidableEq, Repr

/-- The `InstanceForm` built per successfully-polled peer: domain plus the
optional software name/version and the new `updated` timestamp. -/
structure InstanceForm where
  domain : String
  software : Option String
  version : Option String
  updated : Option Int
deriving DecidableEq, Repr

/-- Build the `InstanceForm` exactly as `update_instance_software` does:
`software.and_then(name)`, `software.and_then(version)`, `updated = now`. -/
def mkInstanceForm (inst : Instance) (ni : NodeInfo) (now : Int) : InstanceForm :=
  { domain := inst.domain,
    software := ni.software.bind (fun s => s.name),
    version := ni.software.bind (fun s => s.version),
    updated := some now }

/-- Modelled from the spec: the `InstanceForm` changeset semantics live in
`crates/db_schema/src/source/instance.rs`, which is not part of the given
sources. Per the spec, a successful poll overwrites the stored software
name, version and last-updated timestamp with the form's values (absent
fields become empty/unknown) and leaves other fields untouched. -/
def applyInstanceForm (r : Instance) (f : InstanceForm) : Instance :=
  { r with domain := f.domain, software := f.software,
           version := f.version, updated := f.updated }

/-- `diesel::update(instance::table.find(id)).set(form)`: apply the form to
every row whose primary key equals `i` (at most one in a real table). -/
def setInstanceById (tbl : List Instance) (i : Nat) (f : InstanceForm) : List Instance :=
  tbl.map (fun r => if r.id = i then applyInstanceForm r f else r)

/-- The environment of one `update_instance_software` run: whether the
HTTP-client build succeeds, whether the store read of the instance list
succeeds, the per-peer fetch-and-decode outcome (`none` is any failure:
network error, non-2xx body that fails decoding, malformed body, timeout),
and whether each per-peer store update succeeds. -/
structure DiscoveryEnv where
  clientBuild : Bool
  readOk : Bool
  fetch : String → Option NodeInfo
  writeOk : Nat → Bool

/-- The per-peer loop of `update_instance_software`: iterate over the
snapshot read from the store, skipping peers whose fetch failed and
updating the table row (by id) for peers whose fetch succeeded. A failing
store update is a panic (`expect`), modelled as `Except.error`. -/
def processInstances (env : DiscoveryEnv) (now : Int) :
    List Instance → List Instance → Except String (List Instance)
  | [], acc => Except.ok acc
  | inst :: rest, acc =>
    match env.fetch inst.domain with
    | some ni =>
      if env.writeOk inst.id then
        processInstances env now rest (setInstanceById acc inst.id (mkInstanceForm inst ni now))
      else Except.error "update site instance software"
    | none => processInstances env now rest acc

/-- `update_instance_software`: build the client (panicking on failure),
read the full instance table (panicking on failure), then run the per-peer
loop over the snapshot. `Except.error` marks a panic that aborts the task;
`Except.ok` returns the final instance table. -/
def update_instance_software (tbl : List Instance) (env : DiscoveryEnv) (now : Int) :
    Except String (List Instance) :=
  if env.clientBuild = false then Except.error "couldnt build reqwest client"
  else if env.readOk = false then Except.error "no instances found"
  else processInstances env now tbl tbl

/-- The row a single `update_instance_software` pass (over snapshot `todo`,
all store writes succeeding) leaves in place of a row currently holding
`p`: the first snapshot entry with `p`'s primary key decides the outcome —
polled successfully, the form overwrites the row; fetch failed or key not
in the snapshot, the row stays. -/
def discoveryRowResult (env : DiscoveryEnv) (now : Int) (todo : List Instance)
    (p : Instance) : Instance :=
  match todo.find? (fun inst => decide (inst.id = p.id)) with
  | some inst =>
    match env.fetch inst.domain with
    | some ni => applyInstanceForm p (mkInstanceForm inst ni now)
    | none => p
  | none => p

/-- The task kinds scheduled by `setup`. -/
inductive SchedTask where
  | activeCounts
  | hotRanks (lastWeekOnly : Bool)
  | bannedWhenExpired
  | clearOldActivities
  | instanceSoftware
deriving DecidableEq, Repr

/-- One recurring binding registered with the clokwerk scheduler: a period
in seconds and the task bodies run on each firing, in order. -/
structure Binding where
  period : Nat
  tasks : List SchedTask
deriving DecidableEq, Repr

/-- The tasks `setup` runs once at startup, in source order (lines 40-43). -/
def startupTasks : List SchedTask :=
  [SchedTask.activeCounts, SchedTask.hotRanks false, SchedTask.bannedWhenExpired, SchedTask.clearOldActivities]

/-- The recurring bindings `setup` registers: hourly active counts + ban
sweep, 5-minute windowed hot ranks, weekly activity pruning, daily instance
discovery (lines 46-63). -/
def scheduleBindings : List Binding :=
  [{ period := 60 * 60, tasks := [SchedTask.activeCounts, SchedTask.bannedWhenExpired] },
   { period := 5 * 60, tasks := [SchedTask.hotRanks true] },
   { period := 7 * 24 * 60 * 60, tasks := [SchedTask.clearOldActivities] },
   { period := 24 * 60 * 60, tasks := [SchedTask.instanceSoftware] }]

/-- One row of the `person_mention` table. -/
structure PersonMention where
  id : Nat
  recipient_id : Nat
  comment_id : Nat
  read : Bool
  published : Int
deriving DecidableEq, Repr

/-- The insert form for `PersonMention::create`; `read` is optional as in
the changeset (an absent field leaves a column at its current/default
value). -/
structure PersonMentionInsertForm where
  recipient_id : Nat
  comment_id : Nat
  read : Option Bool
deriving DecidableEq, Repr

/-- Does a stored row conflict with the form on the
`(recipient_id, comment_id)` unique key? -/
def mentionKeyMatches (r : PersonMention) (form : PersonMentionInsertForm) : Bool :=
  decide (r.recipient_id = form.recipient_id) && decide (r.comment_id = form.comment_id)

/-- Modelled from the spec: the `PersonMentionInsertForm` changeset lives in
`crates/db_schema/src/source/person_mention.rs`, which is not part of the
given sources. `do_update().set(form)` overwrites the conflicting row's
columns with the form's present fields; an absent optional field leaves the
column unchanged. -/
def applyMentionForm (r : PersonMention) (form : PersonMentionInsertForm) : PersonMention :=
  { r with recipient_id := form.recipient_id,
           comment_id := form.comment_id,
           read := form.read.getD r.read }

/-- `PersonMention::create`: `INSERT ... ON CONFLICT (recipient_id,
comment_id) DO UPDATE SET form RETURNING *`. If a row with the key exists,
it is updated in place and returned; otherwise a fresh row (next primary
key `nextId`, defaults for absent fields) is appended and returned. -/
def PersonMention.create (tbl : List PersonMention) (nextId : Nat)
    (form : PersonMentionInsertForm) (now : Int) : List PersonMention × PersonMention :=
  match tbl.find? (fun r => mentionKeyMatches r form) with
  | some r =>
    let r' := applyMentionForm r form
    (tbl.map (fun x => if x.id = r.id then r' else x), r')
  | none =>
    let r : PersonMention :=
      { id := nextId, recipient_id := form.recipient_id,
        comment_id := form.comment_id, read := form.read.getD false, published := now }
    (tbl ++ [r], r)

/-!  Claims about the Retention Pruner (`clear_old_activities`). -/

/-- C5: the Retention Pruner deletes exactly the audit/event-log rows whose
timestamp is strictly older than `now - 6 months` — a kept row is a row of
the input (no other rows or fields are touched, the output is a sublist),
a row at the cutoff minus one second is deleted and a row at the cutoff
plus one second is retained. -/
theorem clear_old_activities_retention (now : Int) (acts : List Activity) :
    (∀ a : Activity, a ∈ clear_old_activities now acts ↔
      a ∈ acts ∧ now - sixMonths ≤ a.published) ∧
    (clear_old_activities now acts).Sublist acts ∧
    (∀ a ∈ acts, a.published = now - sixMonths - 1 → a ∉ clear_old_activities now acts) ∧
    (∀ a ∈ acts, a.published = now - sixMonths + 1 → a ∈ clear_old_activities now acts) := by
  have hmem : ∀ a : Activity, a ∈ clear_old_activities now acts ↔
      a ∈ acts ∧ now - sixMonths ≤ a.published := by
    intro a
    simp [clear_old_activities, List.mem_filter, not_lt]
  refine ⟨hmem, List.filter_sublist _, ?_, ?_⟩
  · intro a ha hpub hcontra
    have := ((hmem a).mp hcontra).2
    omega
  · intro a ha hpub
    exact (hmem a).mpr ⟨ha, by omega⟩

/-- Witness for `clear_old_activities_retention` at `now = 0` on a
two-element log straddling the cutoff. -/
theorem clear_old_activities_retention_witness :
    ({ id := 1, published := -sixMonths - 1, payload := "old" } : Activity) ∉
      clear_old_activities 0
        [{ id := 1, published := -sixMonths - 1, payload := "old" },
         { id := 2, published := -sixMonths + 1, payload := "new" }] ∧
    ({ id := 2, published := -sixMonths + 1, payload := "new" } : Activity) ∈
      clear_old_activities 0
        [{ id := 1, published := -sixMonths - 1, payload := "old" },
         { id := 2, published := -sixMonths + 1, payload := "new" }] := by
  constructor
  · exact (clear_old_activities_retention 0 _).2.2.1 _ (by simp) (by simp)
  · exact (clear_old_activities_retention 0 _).2.2.2 _ (by simp) (by simp)

/-!  Claims about the Ban Expiry Sweep (`update_banned_when_expired`). -/

/-- C6: one sweep clears the banned flag (and changes nothing else in the
row, in particular the expiry timestamp stays) for every person banned with
an expiry in the past, leaves persons whose expiry is in the future
unchanged, deletes every community ban with a past expiry and retains every
community ban with a future expiry. -/
theorem update_banned_when_expired_correct (now : Int) (persons : List Person)
    (bans : List CommunityPersonBan) :
    (∀ (i : Nat) (p : Person) (e : Int),
      persons[i]? = some p → p.banned = true → p.ban_expires = some e → e < now →
      (update_banned_when_expired now persons bans).1[i]? = some { p with banned := false }) ∧
    (∀ (i : Nat) (p : Person) (e : Int),
      persons[i]? = some p → p.ban_expires = some e → now < e →
      (update_banned_when_expired now persons bans).1[i]? = some p) ∧
    (∀ b ∈ bans, ∀ e : Int, b.expires = some e → e < now →
      b ∉ (update_banned_when_expired now persons bans).2) ∧
    (∀ b ∈ bans, ∀ e : Int, b.expires = some e → now < e →
      b ∈ (update_banned_when_expired now persons bans).2) := by
  refine ⟨?_, ?_, ?_, ?_⟩
  · intro i p e hip hb he hlt
    have hexp : expiresLt p.ban_expires now = true := by
      simp [he, expiresLt, hlt]
    simp [update_banned_when_expired, List.getElem?_map, hip, sweepPerson, hb, hexp]
  · intro i p e hip he hgt
    have hexp : expiresLt p.ban_expires now = false := by
      simp [he, expiresLt]
      omega
    simp [update_banned_when_expired, List.getElem?_map, hip, sweepPerson, hexp]
  · intro b hb e he hlt hcontra
    have := (List.mem_filter.mp hcontra).2
    simp [expiresLt, he, hlt] at this
  · intro b hb e he hgt
    refine List.mem_filter.mpr ⟨hb, ?_⟩
    have : expiresLt b.expires now = false := by
      simp [expiresLt, he]
      omega
    simp [this]

/-- Witness for `update_banned_when_expired_correct` at `now = 100`: a ban
expired at 50 is cleared keeping its expiry, a ban expiring at 200 is kept,
an expired community ban is deleted, an unexpired one retained. -/
theorem update_banned_when_expired_correct_witness :
    ((update_banned_when_expired 100
        [{ id := 1, name := "a", banned := true, ban_expires := some 50 },
         { id := 2, name := "b", banned := true, ban_expires := some 200 }]
        [{ community_id := 7, person_id := 1, expires := some 50 },
         { community_id := 7, person_id := 2, expires := some 200 }]).1[0]? =
      some { id := 1, name := "a", banned := false, ban_expires := some 50 }) ∧
    ((update_banned_when_expired 100
        [{ id := 1, name := "a", banned := true, ban_expires := some 50 },
         { id := 2, name := "b", banned := true, ban_expires := some 200 }]
        [{ community_id := 7, person_id := 1, expires := some 50 },
         { community_id := 7, person_id := 2, expires := some 200 }]).1[1]? =
      some { id := 2, name := "b", banned := true, ban_expires := some 200 }) ∧
    ({ community_id := 7, person_id := 1, expires := some 50 } : CommunityPersonBan) ∉
      (update_banned_when_expired 100
        [{ id := 1, name := "a", banned := true, ban_expires := some 50 },
         { id := 2, name := "b", banned := true, ban_expires := some 200 }]
        [{ community_id := 7, person_id := 1, expires := some 50 },
         { community_id := 7, person_id := 2, expires := some 200 }]).2 ∧
    ({ community_id := 7, person_id := 2, expires := some 200 } : CommunityPersonBan) ∈
      (update_banned_when_expired 100
        [{ id := 1, name := "a", banned := true, ban_expires := some 50 },
         { id := 2, name := "b", banned := true, ban_expires := some 200 }]
        [{ community_id := 7, person_id := 1, expires := some 50 },
         { community_id := 7, person_id := 2, expires := some 200 }]).2 := by
  refine ⟨?_, ?_, ?_, ?_⟩
  · exact (update_banned_when_expired_correct 100 _ _).1 0
      { id := 1, name := "a", banned := true, ban_expires := some 50 } 50
      rfl rfl rfl (by omega)
  · exact (update_banned_when_expired_correct 100 _ _).2.1 1
      { id := 2, name := "b", banned := true, ban_expires := some 200 } 200
      rfl rfl (by omega)
  · exact (update_banned_when_expired_correct 100 _ _).2.2.1 _ (by simp) 50 rfl (by omega)
  · exact (update_banned_when_expired_correct 100 _ _).2.2.2 _ (by simp) 200 rfl (by omega)

/-- A swept person row never still matches the sweep filter: after one pass
the row is either unbanned or its expiry has not passed. -/
theorem sweepPerson_sweepPerson (now : Int) (p : Person) :
    sweepPerson now (sweepPerson now p) = sweepPerson now p := by
  by_cases h : (p.banned && expiresLt p.ban_expires now) = true
  · have h1 : sweepPerson now p = { p with banned := false } := by
      unfold sweepPerson
      rw [if_pos h]
    rw [h1]
    unfold sweepPerson
    simp
  · have h1 : sweepPerson now p = p := by
      unfold sweepPerson
      rw [if_neg h]
    rw [h1]
    exact h1

/-- C7: the Ban Expiry Sweep is idempotent — for every store state and every
fixed clock value, running `update_banned_when_expired` on its own output
changes nothing further. -/
theorem update_banned_when_expired_idempotent (now : Int) (persons : List Person)
    (bans : List CommunityPersonBan) :
    update_banned_when_expired now
      (update_banned_when_expired now persons bans).1
      (update_banned_when_expired now persons bans).2 =
    update_banned_when_expired now persons bans := by
  unfold update_banned_when_expired
  refine Prod.ext ?_ ?_
  · show (persons.map (sweepPerson now)).map (sweepPerson now) = persons.map (sweepPerson now)
    rw [List.map_map]
    exact List.map_congr_left (fun p _ => sweepPerson_sweepPerson now p)
  · show (List.filter _ (List.filter _ bans)) = List.filter _ bans
    rw [List.filter_filter]
    simp

/-- C10: a permanently banned person (`banned = true`, `ban_expires` NULL)
is never touched by the sweep: the row is returned unchanged at its
position, whatever the clock says. -/
theorem permanent_ban_untouched (now : Int) (persons : List Person)
    (bans : List CommunityPersonBan) :
    ∀ (i : Nat) (p : Person), persons[i]? = some p → p.ban_expires = none →
      (update_banned_when_expired now persons bans).1[i]? = some p := by
  intro i p hip hnone
  have hexp : expiresLt p.ban_expires now = false := by
    simp [hnone, expiresLt]
  simp [update_banned_when_expired, List.getElem?_map, hip, sweepPerson, hexp]

/-- Witness for `permanent_ban_untouched`: a banned person with no expiry
is unchanged by a sweep at time 1000. -/
theorem permanent_ban_untouched_witness :
    (update_banned_when_expired 1000
      [{ id := 9, name := "perm", banned := true, ban_expires := none }] []).1[0]? =
    some { id := 9, name := "perm", banned := true, ban_expires := none } :=
  permanent_ban_untouched 1000 _ [] 0
    { id := 9, name := "perm", banned := true, ban_expires := none } rfl rfl

/-!  Claims about `setup`'s startup behaviour and schedule table. -/

/-- C8: startup runs exactly the four tasks Active-Window Recount,
full-history Aggregate Recompute, Ban Expiry Sweep and Retention Pruner
once; no recurring binding ever runs the full-history recompute (recurring
recomputes are windowed); Instance Discovery and the windowed recompute are
not part of startup. -/
theorem setup_startup_and_schedule :
    startupTasks = [SchedTask.activeCounts, SchedTask.hotRanks false,
      SchedTask.bannedWhenExpired, SchedTask.clearOldActivities] ∧
    startupTasks.length = 4 ∧
    (scheduleBindings.all (fun b => !b.tasks.contains (SchedTask.hotRanks false))) = true ∧
    startupTasks.contains SchedTask.instanceSoftware = false ∧
    startupTasks.contains (SchedTask.hotRanks true) = false := by
  refine ⟨rfl, rfl, ?_, ?_, ?_⟩ <;> decide

/-!  Claims about the Aggregate Recompute (`update_hot_ranks`). -/

/-- C4: with `last_week_only = true` the recompute touches, in each of the
three aggregate tables, exactly the rows published within the last week —
an older row is returned unchanged at its position (its ranks keep their
stored values), a recent row gets its rank(s) recomputed — while with
`last_week_only = false` every row of every table is recomputed. -/
theorem update_hot_ranks_windowing (hr : Int → Int → Int) (now : Int)
    (posts : List PostAggregate) (comments : List CommentAggregate)
    (communities : List CommunityAggregate) :
    (∀ (i : Nat) (p : PostAggregate), posts[i]? = some p →
      p.published ≤ now - oneWeek →
      (update_hot_ranks hr now true posts comments communities).1[i]? = some p) ∧
    (∀ (i : Nat) (p : PostAggregate), posts[i]? = some p →
      now - oneWeek < p.published →
      (update_hot_ranks hr now true posts comments communities).1[i]? =
        some (setPostHotRank hr p)) ∧
    (∀ (i : Nat) (c : CommentAggregate), comments[i]? = some c →
      c.published ≤ now - oneWeek →
      (update_hot_ranks hr now true posts comments communities).2.1[i]? = some c) ∧
    (∀ (i : Nat) (c : CommentAggregate), comments[i]? = some c →
      now - oneWeek < c.published →
      (update_hot_ranks hr now true posts comments communities).2.1[i]? =
        some (setCommentHotRank hr c)) ∧
    (∀ (i : Nat) (c : CommunityAggregate), communities[i]? = some c →
      c.published ≤ now - oneWeek →
      (update_hot_ranks hr now true posts comments communities).2.2[i]? = some c) ∧
    (∀ (i : Nat) (c : CommunityAggregate), communities[i]? = some c →
      now - oneWeek < c.published →
      (update_hot_ranks hr now true posts comments communities).2.2[i]? =
        some (setCommunityHotRank hr c)) ∧
    (∀ (i : Nat) (p : PostAggregate), posts[i]? = some p →
      (update_hot_ranks hr now false posts comments communities).1[i]? =
        some (setPostHotRank hr p)) ∧
    (∀ (i : Nat) (c : CommentAggregate), comments[i]? = some c →
      (update_hot_ranks hr now false posts comments communities).2.1[i]? =
        some (setCommentHotRank hr c)) ∧
    (∀ (i : Nat) (c : CommunityAggregate), communities[i]? = some c →
      (update_hot_ranks hr now false posts comments communities).2.2[i]? =
        some (setCommunityHotRank hr c)) := by
  refine ⟨?_, ?_, ?_, ?_, ?_, ?_, ?_, ?_, ?_⟩
  · intro i x hix h1
    simp [update_hot_ranks, List.getElem?_map, hix, not_lt.mpr h1]
  · intro i x hix h1
    simp [update_hot_ranks, List.getElem?_map, hix, h1]
  · intro i x hix h1
    simp [update_hot_ranks, List.getElem?_map, hix, not_lt.mpr h1]
  · intro i x hix h1
    simp [update_hot_ranks, List.getElem?_map, hix, h1]
  · intro i x hix h1
    simp [update_hot_ranks, List.getElem?_map, hix, not_lt.mpr h1]
  · intro i x hix h1
    simp [update_hot_ranks, List.getElem?_map, hix, h1]
  · intro i x hix
    simp [update_hot_ranks, List.getElem?_map, hix]
  · intro i x hix
    simp [update_hot_ranks, List.getElem?_map, hix]
  · intro i x hix
    simp [update_hot_ranks, List.getElem?_map, hix]

/-- Witness for `update_hot_ranks_windowing` at `now = 0` with scorer
`hr s t = s + t`: the post published 8 days ago keeps its stored ranks, the
post published 3 days ago is recomputed, and the full-history mode
recomputes the 8-day-old post too. -/
theorem update_hot_ranks_windowing_witness :
    ((update_hot_ranks (fun s t => s + t) 0 true
        [{ post_id := 1, score := 10, published := -8 * 86400,
           newest_comment_time_necro := -8 * 86400, hot_rank := 77, hot_rank_active := 88 },
         { post_id := 2, score := 10, published := -3 * 86400,
           newest_comment_time_necro := -2 * 86400, hot_rank := 77, hot_rank_active := 88 }]
        [] []).1[0]? =
      some { post_id := 1, score := 10, published := -8 * 86400,
             newest_comment_time_necro := -8 * 86400, hot_rank := 77, hot_rank_active := 88 }) ∧
    ((update_hot_ranks (fun s t => s + t) 0 true
        [{ post_id := 1, score := 10, published := -8 * 86400,
           newest_comment_time_necro := -8 * 86400, hot_rank := 77, hot_rank_active := 88 },
         { post_id := 2, score := 10, published := -3 * 86400,
           newest_comment_time_necro := -2 * 86400, hot_rank := 77, hot_rank_active := 88 }]
        [] []).1[1]? =
      some { post_id := 2, score := 10, published := -3 * 86400,
             newest_comment_time_necro := -2 * 86400, hot_rank := 10 + -3 * 86400,
             hot_rank_active := 10 + -2 * 86400 }) ∧
    ((update_hot_ranks (fun s t => s + t) 0 false
        [{ post_id := 1, score := 10, published := -8 * 86400,
           newest_comment_time_necro := -8 * 86400, hot_rank := 77, hot_rank_active := 88 }]
        [] []).1[0]? =
      some { post_id := 1, score := 10, published := -8 * 86400,
             newest_comment_time_necro := -8 * 86400, hot_rank := 10 + -8 * 86400,
             hot_rank_active := 10 + -8 * 86400 }) := by
  refine ⟨?_, ?_, ?_⟩
  · exact (update_hot_ranks_windowing (fun s t => s + t) 0 _ [] []).1 0
      { post_id := 1, score := 10, published := -8 * 86400,
        newest_comment_time_necro := -8 * 86400, hot_rank := 77, hot_rank_active := 88 }
      rfl (by simp [oneWeek])
  · exact (update_hot_ranks_windowing (fun s t => s + t) 0 _ [] []).2.1 1
      { post_id := 2, score := 10, published := -3 * 86400,
        newest_comment_time_necro := -2 * 86400, hot_rank := 77, hot_rank_active := 88 }
      rfl (by simp [oneWeek])
  · exact (update_hot_ranks_windowing (fun s t => s + t) 0 _ [] []).2.2.2.2.2.2.1 0
      { post_id := 1, score := 10, published := -8 * 86400,
        newest_comment_time_necro := -8 * 86400, hot_rank := 77, hot_rank_active := 88 }
      rfl

/-!  Claim about `PersonMention::create` (upsert on conflict). -/

/-- C9: creating a mention whose `(recipient_id, comment_id)` key already
exists does not fail and creates no duplicate — the table keeps its size,
the returned row carries the requested key, and its primary key is that of
a row already in the table (the conflicting row was updated in place). -/
theorem PersonMention.create_upsert (tbl : List PersonMention) (nextId : Nat)
    (form : PersonMentionInsertForm) (now : Int) (r0 : PersonMention)
    (hmem : r0 ∈ tbl) (hkey : mentionKeyMatches r0 form = true) :
    (PersonMention.create tbl nextId form now).1.length = tbl.length ∧
    (PersonMention.create tbl nextId form now).2.recipient_id = form.recipient_id ∧
    (PersonMention.create tbl nextId form now).2.comment_id = form.comment_id ∧
    ∃ r ∈ tbl, (PersonMention.create tbl nextId form now).2.id = r.id := by
  have hsome : (tbl.find? (fun r => mentionKeyMatches r form)).isSome :=
    List.find?_isSome.mpr ⟨r0, hmem, hkey⟩
  obtain ⟨r, hr⟩ := Option.isSome_iff_exists.mp hsome
  have hrmem : r ∈ tbl := List.mem_of_find?_eq_some hr
  refine ⟨?_, ?_, ?_, ?_⟩
  · simp [PersonMention.create, hr]
  · simp [PersonMention.create, hr, applyMentionForm]
  · simp [PersonMention.create, hr, applyMentionForm]
  · exact ⟨r, hrmem, by simp [PersonMention.create, hr, applyMentionForm]⟩

/-- Witness for `PersonMention.create_upsert`: re-creating the mention
`(recipient 2, comment 3)` over a one-row table keeps one row and returns
the existing row's key. -/
theorem PersonMention.create_upsert_witness :
    (PersonMention.create
        [{ id := 1, recipient_id := 2, comment_id := 3, read := false, published := 0 }]
        5 { recipient_id := 2, comment_id := 3, read := some true } 10).1.length = 1 ∧
    (PersonMention.create
        [{ id := 1, recipient_id := 2, comment_id := 3, read := false, published := 0 }]
        5 { recipient_id := 2, comment_id := 3, read := some true } 10).2.recipient_id = 2 ∧
    (PersonMention.create
        [{ id := 1, recipient_id := 2, comment_id := 3, read := false, published := 0 }]
        5 { recipient_id := 2, comment_id := 3, read := some true } 10).2.comment_id = 3 ∧
    ∃ r ∈ [({ id := 1, recipient_id := 2, comment_id := 3, read := false,
              published := 0 } : PersonMention)],
      (PersonMention.create
        [{ id := 1, recipient_id := 2, comment_id := 3, read := false, published := 0 }]
        5 { recipient_id := 2, comment_id := 3, read := some true } 10).2.id = r.id :=
  PersonMention.create_upsert _ 5 _ 10
    { id := 1, recipient_id := 2, comment_id := 3, read := false, published := 0 }
    (by simp) (by decide)

/-!  Claims about Federated Instance Discovery (`update_instance_software`). -/

/-- With every store write succeeding, the per-peer loop never aborts,
whatever the per-peer fetch results are. -/
theorem processInstances_ok (env : DiscoveryEnv) (now : Int)
    (hw : ∀ i, env.writeOk i = true) :
    ∀ todo acc : List Instance, ∃ r, processInstances env now todo acc = Except.ok r := by
  intro todo
  induction todo with
  | nil => exact fun acc => ⟨acc, rfl⟩
  | cons inst rest ih =>
    intro acc
    cases hf : env.fetch inst.domain with
    | none => simpa [processInstances, hf] using ih acc
    | some ni =>
      simpa [processInstances, hf, hw inst.id] using
        ih (setInstanceById acc inst.id (mkInstanceForm inst ni now))

/-- The per-peer loop neither inserts nor deletes instance rows. -/
theorem processInstances_length (env : DiscoveryEnv) (now : Int) :
    ∀ todo acc r : List Instance,
      processInstances env now todo acc = Except.ok r → r.length = acc.length := by
  intro todo
  induction todo with
  | nil =>
    intro acc r h
    simp only [processInstances] at h
    cases h
    rfl
  | cons inst rest ih =>
    intro acc r h
    cases hf : env.fetch inst.domain with
    | none =>
      simp only [processInstances, hf] at h
      exact ih acc r h
    | some ni =>
      simp only [processInstances, hf] at h
      by_cases hwk : env.writeOk inst.id = true
      · rw [if_pos hwk] at h
        have := ih _ r h
        simpa [setInstanceById] using this
      · rw [if_neg hwk] at h
        cases h

theorem discoveryRowResult_cons_hit (env : DiscoveryEnv) (now : Int)
    (inst : Instance) (rest : List Instance) (p : Instance) (hid : inst.id = p.id) :
    discoveryRowResult env now (inst :: rest) p =
      match env.fetch inst.domain with
      | some ni => applyInstanceForm p (mkInstanceForm inst ni now)
      | none => p := by
  unfold discoveryRowResult
  rw [List.find?_cons_of_pos _ (by simp [hid])]

theorem discoveryRowResult_cons_miss (env : DiscoveryEnv) (now : Int)
    (inst : Instance) (rest : List Instance) (p : Instance) (hid : inst.id ≠ p.id) :
    discoveryRowResult env now (inst :: rest) p = discoveryRowResult env now rest p := by
  unfold discoveryRowResult
  rw [List.find?_cons_of_neg _ (by simp [hid])]

theorem discoveryRowResult_not_found (env : DiscoveryEnv) (now : Int)
    (todo : List Instance) (p : Instance) (h : ∀ x ∈ todo, x.id ≠ p.id) :
    discoveryRowResult env now todo p = p := by
  unfold discoveryRowResult
  rw [List.find?_eq_none.mpr (by intro x hx; simpa using h x hx)]

/-- Master characterization of the per-peer loop when the snapshot's
primary keys are distinct and all store writes succeed: the final table is
the current table rewritten row by row according to `discoveryRowResult`. -/
theorem processInstances_getElem (env : DiscoveryEnv) (now : Int)
    (hw : ∀ i, env.writeOk i = true) :
    ∀ todo : List Instance, (todo.map (fun r => r.id)).Nodup →
    ∀ acc r : List Instance, processInstances env now todo acc = Except.ok r →
    ∀ (j : Nat) (p : Instance), acc[j]? = some p →
      r[j]? = some (discoveryRowResult env now todo p) := by
  intro todo
  induction todo with
  | nil =>
    intro _ acc r h j p hjp
    simp only [processInstances] at h
    cases h
    simpa [discoveryRowResult] using hjp
  | cons inst rest ih =>
    intro hnodup acc r h j p hjp
    rw [List.map_cons] at hnodup
    have hnd := List.nodup_cons.mp hnodup
    have hnd1 : inst.id ∉ rest.map (fun r => r.id) := hnd.1
    have hnd2 : (rest.map (fun r => r.id)).Nodup := hnd.2
    cases hf : env.fetch inst.domain with
    | none =>
      simp only [processInstances, hf] at h
      have hres := ih hnd2 acc r h j p hjp
      rw [hres]
      by_cases hid : inst.id = p.id
      · have hrest : ∀ x ∈ rest, x.id ≠ p.id := by
          intro x hx hc
          exact hnd1 (by rw [hid, ← hc]; exact List.mem_map_of_mem _ hx)
        rw [discoveryRowResult_not_found env now rest p hrest,
          discoveryRowResult_cons_hit env now inst rest p hid, hf]
      · rw [discoveryRowResult_cons_miss env now inst rest p hid]
    | some ni =>
      simp only [processInstances, hf, hw inst.id, if_true] at h
      by_cases hid : p.id = inst.id
      · have happ : (setInstanceById acc inst.id (mkInstanceForm inst ni now))[j]? =
            some (applyInstanceForm p (mkInstanceForm inst ni now)) := by
          simp [setInstanceById, List.getElem?_map, hjp, hid]
        have hres := ih hnd2 _ r h j _ happ
        rw [hres]
        have hrest : ∀ x ∈ rest,
            x.id ≠ (applyInstanceForm p (mkInstanceForm inst ni now)).id := by
          intro x hx hc
          have hxid : x.id = p.id := hc
          exact hnd1 (by rw [← hid, ← hxid]; exact List.mem_map_of_mem _ hx)
        rw [discoveryRowResult_not_found env now rest _ hrest,
          discoveryRowResult_cons_hit env now inst rest p hid.symm, hf]
      · have happ : (setInstanceById acc inst.id (mkInstanceForm inst ni now))[j]? =
            some p := by
          simp [setInstanceById, List.getElem?_map, hjp, hid]
        have hres := ih hnd2 _ r h j _ happ
        rw [hres, discoveryRowResult_cons_miss env now inst rest p (fun hc => hid hc.symm)]

/-- In a table with distinct primary keys, looking up a row's own key finds
exactly that row. -/
theorem find_id_getElem :
    ∀ tbl : List Instance, (tbl.map (fun r => r.id)).Nodup →
    ∀ (j : Nat) (p : Instance), tbl[j]? = some p →
      tbl.find? (fun inst => decide (inst.id = p.id)) = some p := by
  intro tbl
  induction tbl with
  | nil =>
    intro _ j p h
    simp at h
  | cons a l ih =>
    intro hnodup j p h
    rw [List.map_cons] at hnodup
    have hnd := List.nodup_cons.mp hnodup
    cases j with
    | zero =>
      have : a = p := by simpa using h
      subst this
      exact List.find?_cons_of_pos _ (by simp)
    | succ n =>
      have h' : l[n]? = some p := by simpa using h
      have hpl : p ∈ l := List.getElem?_mem h'
      have hne : a.id ≠ p.id := by
        intro hc
        exact hnd.1 (hc ▸ List.mem_map_of_mem _ hpl)
      rw [List.find?_cons_of_neg _ (by simp [hne])]
      exact ih hnd.2 n p h'

/-- Shared characterization of a full `update_instance_software` run under
a working store and HTTP client and distinct primary keys: the run
succeeds, preserves the row count, leaves fetch-failed peers' rows
unchanged and overwrites fetch-succeeded peers' rows with their form. -/
theorem update_instance_software_run (tbl : List Instance) (env : DiscoveryEnv)
    (now : Int) (hclient : env.clientBuild = true) (hread : env.readOk = true)
    (hwrite : ∀ i, env.writeOk i = true)
    (hnodup : (tbl.map (fun r => r.id)).Nodup) :
    ∃ res, update_instance_software tbl env now = Except.ok res ∧
      res.length = tbl.length ∧
      (∀ (j : Nat) (p : Instance), tbl[j]? = some p → env.fetch p.domain = none →
        res[j]? = some p) ∧
      (∀ (j : Nat) (p : Instance) (ni : NodeInfo), tbl[j]? = some p →
        env.fetch p.domain = some ni →
        res[j]? = some (applyInstanceForm p (mkInstanceForm p ni now))) := by
  obtain ⟨res, hres⟩ := processInstances_ok env now hwrite tbl tbl
  have hrun : update_instance_software tbl env now = Except.ok res := by
    simp [update_instance_software, hclient, hread, hres]
  refine ⟨res, hrun, processInstances_length env now tbl tbl res hres, ?_, ?_⟩
  · intro j p hjp hfail
    rw [processInstances_getElem env now hwrite tbl hnodup tbl res hres j p hjp]
    unfold discoveryRowResult
    simp [find_id_getElem tbl hnodup j p hjp, hfail]
  · intro j p ni hjp hok
    rw [processInstances_getElem env now hwrite tbl hnodup tbl res hres j p hjp]
    unfold discoveryRowResult
    simp [find_id_getElem tbl hnodup j p hjp, hok]

/-- C1: under a working store and HTTP client, and with distinct instance
primary keys, a fetch failure (network error, non-2xx/malformed body,
timeout — all are `fetch = none`) for any one peer leaves that peer's row
unchanged, does not stop the other peers from being polled and updated,
and the task completes without error. -/
theorem instance_discovery_peer_isolation (tbl : List Instance) (env : DiscoveryEnv)
    (now : Int) (hclient : env.clientBuild = true) (hread : env.readOk = true)
    (hwrite : ∀ i, env.writeOk i = true)
    (hnodup : (tbl.map (fun r => r.id)).Nodup) :
    ∃ res, update_instance_software tbl env now = Except.ok res ∧
      res.length = tbl.length ∧
      (∀ (j : Nat) (p : Instance), tbl[j]? = some p → env.fetch p.domain = none →
        res[j]? = some p) ∧
      (∀ (j : Nat) (p : Instance) (ni : NodeInfo), tbl[j]? = some p →
        env.fetch p.domain = some ni →
        res[j]? = some (applyInstanceForm p (mkInstanceForm p ni now))) :=
  update_instance_software_run tbl env now hclient hread hwrite hnodup

/-- Witness for `instance_discovery_peer_isolation`: three peers, the
second unreachable — the run succeeds, the second keeps its stored
software/version, and the first and third are overwritten from their
fetched documents. -/
theorem instance_discovery_peer_isolation_witness :
    ∃ res, update_instance_software
        [{ id := 1, domain := "a.example", software := some "oldA",
           version := some "1", updated := none },
         { id := 2, domain := "b.example", software := some "oldB",
           version := some "2", updated := none },
         { id := 3, domain := "c.example", software := some "oldC",
           version := some "3", updated := none }]
        { clientBuild := true, readOk := true,
          fetch := fun d => if d = "b.example" then none
            else some { software := some { name := some "lemmy", version := some "0.17.0" } },
          writeOk := fun _ => true } 42 = Except.ok res ∧
      res[1]? = some { id := 2, domain := "b.example", software := some "oldB",
                       version := some "2", updated := none } ∧
      res[0]? = some { id := 1, domain := "a.example", software := some "lemmy",
                       version := some "0.17.0", updated := some 42 } ∧
      res[2]? = some { id := 3, domain := "c.example", software := some "lemmy",
                       version := some "0.17.0", updated := some 42 } := by
  obtain ⟨res, hok, _, hfail, hupd⟩ := instance_discovery_peer_isolation
    [{ id := 1, domain := "a.example", software := some "oldA",
       version := some "1", updated := none },
     { id := 2, domain := "b.example", software := some "oldB",
       version := some "2", updated := none },
     { id := 3, domain := "c.example", software := some "oldC",
       version := some "3", updated := none }]
    { clientBuild := true, readOk := true,
      fetch := fun d => if d = "b.example" then none
        else some { software := some { name := some "lemmy", version := some "0.17.0" } },
      writeOk := fun _ => true } 42 rfl rfl (fun _ => rfl) (by decide)
  refine ⟨res, hok, ?_, ?_, ?_⟩
  · exact hfail 1 _ rfl (by decide)
  · simpa using hupd 0
      { id := 1, domain := "a.example", software := some "oldA",
        version := some "1", updated := none }
      { software := some { name := some "lemmy", version := some "0.17.0" } }
      rfl (by decide)
  · simpa using hupd 2
      { id := 3, domain := "c.example", software := some "oldC",
        version := some "3", updated := none }
      { software := some { name := some "lemmy", version := some "0.17.0" } }
      rfl (by decide)

/-- C3 (on the spec-modelled form semantics): when the fetch of a peer
succeeds, the stored software/version become exactly the document's
optional name/version — `none` when the document omits the software block
or the field inside it — overwriting the prior values, and `updated` is
refreshed; prior values survive only for peers whose fetch failed. -/
theorem instance_discovery_overwrites_absent_fields (tbl : List Instance)
    (env : DiscoveryEnv) (now : Int)
    (hclient : env.clientBuild = true) (hread : env.readOk = true)
    (hwrite : ∀ i, env.writeOk i = true)
    (hnodup : (tbl.map (fun r => r.id)).Nodup) :
    ∃ res, update_instance_software tbl env now = Except.ok res ∧
      (∀ (j : Nat) (p : Instance) (ni : NodeInfo), tbl[j]? = some p →
        env.fetch p.domain = some ni → ni.software = none →
        res[j]? = some { p with software := none, version := none, updated := some now }) ∧
      (∀ (j : Nat) (p : Instance) (ni : NodeInfo) (s : NodeInfoSoftware),
        tbl[j]? = some p → env.fetch p.domain = some ni → ni.software = some s →
        res[j]? = some { p with software := s.name, version := s.version,
                                updated := some now }) ∧
      (∀ (j : Nat) (p : Instance), tbl[j]? = some p → env.fetch p.domain = none →
        res[j]? = some p) := by
  obtain ⟨res, hok, _, hfail, hupd⟩ :=
    update_instance_software_run tbl env now hclient hread hwrite hnodup
  refine ⟨res, hok, ?_, ?_, hfail⟩
  · intro j p ni hjp hfetch hsw
    rw [hupd j p ni hjp hfetch]
    simp [applyInstanceForm, mkInstanceForm, hsw]
  · intro j p ni s hjp hfetch hsw
    rw [hupd j p ni hjp hfetch]
    simp [applyInstanceForm, mkInstanceForm, hsw]

/-- Witness for `instance_discovery_overwrites_absent_fields`: a peer whose
document has no software block gets `software = none`, `version = none`,
fresh `updated`, overwriting the prior stored values; a peer whose document
has a software block with no version stores the name and a `none` version;
an unreachable peer keeps its prior row. -/
theorem instance_discovery_overwrites_absent_fields_witness :
    ∃ res, update_instance_software
        [{ id := 1, domain := "noblock.example", software := some "stale",
           version := some "9", updated := some 5 },
         { id := 2, domain := "noversion.example", software := some "stale",
           version := some "9", updated := some 5 },
         { id := 3, domain := "down.example", software := some "stale",
           version := some "9", updated := some 5 }]
        { clientBuild := true, readOk := true,
          fetch := fun d =>
            if d = "noblock.example" then some { software := none }
            else if d = "noversion.example" then
              some { software := some { name := some "kbin", version := none } }
            else none,
          writeOk := fun _ => true } 77 = Except.ok res ∧
      res[0]? = some { id := 1, domain := "noblock.example", software := none,
                       version := none, updated := some 77 } ∧
      res[1]? = some { id := 2, domain := "noversion.example", software := some "kbin",
                       version := none, updated := some 77 } ∧
      res[2]? = some { id := 3, domain := "down.example", software := some "stale",
                       version := some "9", updated := some 5 } := by
  obtain ⟨res, hok, hnoblock, hblock, hfail⟩ :=
    instance_discovery_overwrites_absent_fields
      [{ id := 1, domain := "noblock.example", software := some "stale",
         version := some "9", updated := some 5 },
       { id := 2, domain := "noversion.example", software := some "stale",
         version := some "9", updated := some 5 },
       { id := 3, domain := "down.example", software := some "stale",
         version := some "9", updated := some 5 }]
      { clientBuild := true, readOk := true,
        fetch := fun d =>
          if d = "noblock.example" then some { software := none }
          else if d = "noversion.example" then
            some { software := some { name := some "kbin", version := none } }
          else none,
        writeOk := fun _ => true } 77 rfl rfl (fun _ => rfl) (by decide)
  refine ⟨res, hok, ?_, ?_, ?_⟩
  · exact hnoblock 0 _ { software := none } rfl (by decide) rfl
  · exact hblock 1 _ { software := some { name := some "kbin", version := none } }
      { name := some "kbin", version := none } rfl (by decide) rfl
  · exact hfail 2 _ rfl (by decide)

/-- If some peer in the snapshot fetches successfully but its store update
fails, the per-peer loop aborts with the store-update panic: the loop stops
at the first such peer it reaches. -/
theorem processInstances_write_failure (env : DiscoveryEnv) (now : Int) :
    ∀ todo acc : List Instance,
      (∃ inst ∈ todo, (env.fetch inst.domain).isSome = true ∧ env.writeOk inst.id = false) →
      processInstances env now todo acc = Except.error "update site instance software" := by
  intro todo
  induction todo with
  | nil =>
    intro acc h
    obtain ⟨inst, hmem, _⟩ := h
    simp at hmem
  | cons a rest ih =>
    intro acc h
    obtain ⟨x, hx, hfetch, hwfail⟩ := h
    cases hf : env.fetch a.domain with
    | none =>
      have hxr : x ∈ rest := by
        rcases List.mem_cons.mp hx with hxa | hxr
        · subst hxa
          rw [hf] at hfetch
          simp at hfetch
        · exact hxr
      simp only [processInstances, hf]
      exact ih acc ⟨x, hxr, hfetch, hwfail⟩
    | some ni =>
      by_cases hwk : env.writeOk a.id = true
      · have hxr : x ∈ rest := by
          rcases List.mem_cons.mp hx with hxa | hxr
          · subst hxa
            rw [hwk] at hwfail
            simp at hwfail
          · exact hxr
        simp only [processInstances, hf]
        rw [if_pos hwk]
        exact ih _ ⟨x, hxr, hfetch, hwfail⟩
      · simp only [processInstances, hf]
        rw [if_neg hwk]

/-- C2 as amended: per-peer fetch failures are never fatal — with a
working HTTP client, a successful instance-list read and succeeding store
writes the task completes for *every* pattern of per-peer fetch failures —
but each of the other failure points aborts the task with an `expect`
panic instead of being swallowed: a failed client build, a failed
instance-list read, and a failed store update for a successfully fetched
peer. -/
theorem instance_discovery_error_policy (tbl : List Instance) (env : DiscoveryEnv)
    (now : Int) :
    (env.clientBuild = true → env.readOk = true → (∀ i, env.writeOk i = true) →
      ∃ res, update_instance_software tbl env now = Except.ok res) ∧
    (env.clientBuild = false →
      update_instance_software tbl env now = Except.error "couldnt build reqwest client") ∧
    (env.clientBuild = true → env.readOk = false →
      update_instance_software tbl env now = Except.error "no instances found") ∧
    (env.clientBuild = true → env.readOk = true →
      (∃ inst ∈ tbl, (env.fetch inst.domain).isSome = true ∧ env.writeOk inst.id = false) →
      update_instance_software tbl env now =
        Except.error "update site instance software") := by
  refine ⟨?_, ?_, ?_, ?_⟩
  · intro hc hr hw
    obtain ⟨res, hres⟩ := processInstances_ok env now hw tbl tbl
    exact ⟨res, by simp [update_instance_software, hc, hr, hres]⟩
  · intro hc
    simp [update_instance_software, hc]
  · intro hc hr
    simp [update_instance_software, hc, hr]
  · intro hc hr hex
    have hrun := processInstances_write_failure env now tbl tbl hex
    simp [update_instance_software, hc, hr, hrun]

/-- Witness for `instance_discovery_error_policy`: with a healthy store and
client, a run over one unreachable peer completes without error; with the
same healthy client and read but a failing store update, a run over one
reachable peer aborts with the store-update panic. -/
theorem instance_discovery_error_policy_witness :
    (∃ res, update_instance_software
      [{ id := 1, domain := "peer.example", software := none,
         version := none, updated := none }]
      { clientBuild := true, readOk := true, fetch := fun _ => none,
        writeOk := fun _ => true } 0 = Except.ok res) ∧
    update_instance_software
      [{ id := 1, domain := "peer.example", software := none,
         version := none, updated := none }]
      { clientBuild := true, readOk := true, fetch := fun _ => some { software := none },
        writeOk := fun _ => false } 0 =
      Except.error "update site instance software" := by
  constructor
  · exact (instance_discovery_error_policy _ _ 0).1 rfl rfl (fun _ => rfl)
  · exact (instance_discovery_error_policy _ _ 0).2.2.2 rfl rfl
      ⟨{ id := 1, domain := "peer.example", software := none,
         version := none, updated := none }, by simp, rfl, rfl⟩

/-- Counterexample to C2 as stated: a store error while reading the
instance list is a failure inside the Instance Discovery task, yet the task
does not swallow it — the run aborts with the `expect` panic
`no instances found` instead of completing. -/
theorem instance_discovery_read_failure_fatal :
    update_instance_software
      [{ id := 1, domain := "peer.example", software := some "lemmy",
         version := some "0.17.0", updated := none }]
      { clientBuild := true, readOk := false, fetch := fun _ => none,
        writeOk := fun _ => true } 0 =
    Except.error "no instances found" := rfl
